import Mathlib

/-!
Verification of the learning-sdk interception and context-propagation core.
The definitions below are shallow embeddings of the TypeScript sources under
src/typescript/src: core.ts, interceptors/openai.ts, interceptors/anthropic.ts,
the Gemini interceptor, interceptors/claude.ts and client/memory/context.ts.
External collaborators (the real provider call, the memory service reply, the
JSON parser of the transport) are parameters of the embedded functions; the
observable side channel (memory retrieval, capture dispatch) is returned as an
explicit effect list.
-/

namespace LearningSDK

/-- One chat message, the shape handed to the capture pipeline. -/
structure Msg where
  role : String
  content : String
deriving DecidableEq, Repr

/-- Concatenation with no separator; models Array.prototype.join with the
empty separator. -/
def joinAll : List String → String
  | [] => ""
  | s :: rest => s ++ joinAll rest

/-- Join with a separator; models Array.prototype.join(sep). -/
def joinSep (sep : String) : List String → String
  | [] => ""
  | [s] => s
  | s :: rest => s ++ sep ++ joinSep sep rest

/-- Side effects of an intercepted call that are visible outside the
request and response path: a memory retrieval against the capability client,
and the dispatch of a captured turn (saveConversationTurn). -/
inductive Effect where
  | retrieveMemory (agent : String)
  | captureTurn (provider : String) (model : String)
      (requestMessages : List Msg) (responseDict : Msg)
deriving DecidableEq, Repr

/-! ## Scoped context (core.ts) -/

/-- Scope configuration from core.ts (interface LearningConfig). The capability
client is modeled by its presence. The Claude transport capture writes a
pendingUserMessage field into this very object at runtime, so the field is part
of the record; it starts absent (none), as an unset property on the JS object. -/
structure LearningConfig where
  agentName : String
  hasClient : Bool
  captureOnly : Bool
  memory : List String
  model : Option String
  pendingUserMessage : Option String := none
deriving DecidableEq, Repr

/-- The AsyncLocalStorage store as observed by one call chain
(core.ts, learningContext). -/
structure ScopeState where
  current : Option LearningConfig
deriving DecidableEq, Repr

/-- getCurrentConfig from core.ts: learningContext.getStore() or null. -/
def currentScope (st : ScopeState) : Option LearningConfig :=
  st.current

/-- learning() from core.ts: reads the previous store, builds the new
configuration and enters it with enterWith; the returned pair is the new state
together with the previous store captured by the exit closure. -/
def learningEnter (st : ScopeState) (cfg : LearningConfig) :
    ScopeState × Option LearningConfig :=
  (⟨some cfg⟩, st.current)

/-- The exit() closure from core.ts: enterWith(previousStore) when one was
saved, otherwise disable(); either way the current store becomes exactly the
saved previous store. -/
def scopeExit (saved : Option LearningConfig) (_st : ScopeState) : ScopeState :=
  ⟨saved⟩

/-- C2: activating scope B inside scope A and then exiting B makes
currentScope() return exactly the configuration of A (not null, not B); in
general, exiting any scope restores exactly the configuration that was current
immediately before that scope was entered. -/
theorem c2_nesting_restores (st : ScopeState) (a b : LearningConfig)
    (later : ScopeState) :
    currentScope (scopeExit (learningEnter (learningEnter st a).1 b).2
        (learningEnter (learningEnter st a).1 b).1) = some a
    ∧ currentScope (scopeExit (learningEnter st a).2 later) = currentScope st :=
  ⟨rfl, rfl⟩

/-! ## Shared base class helper (interceptors/base.ts) -/

/-- retrieveAndInjectMemory of BaseAPIInterceptor: skip in capture only mode or
without client or agent name; otherwise retrieve the memory context (recorded
as an effect) and inject it when truthy. The reply of the memory service is the
memCtx parameter; none models a null reply and likewise a retrieval failure,
both of which leave the request unchanged. -/
def retrieveAndInjectMemory {P : Type}
    (inject : P → String → P) (config : LearningConfig)
    (memCtx : Option String) (kwargs : P) : P × List Effect :=
  if config.captureOnly then (kwargs, [])
  else if !config.hasClient then (kwargs, [])
  else if config.agentName == "" then (kwargs, [])
  else
    match memCtx with
    | none => (kwargs, [Effect.retrieveMemory config.agentName])
    | some ctx =>
        if ctx == "" then (kwargs, [Effect.retrieveMemory config.agentName])
        else (inject kwargs ctx, [Effect.retrieveMemory config.agentName])

/-! ## OpenAI interceptor (interceptors/openai.ts) -/

/-- A chat message of an OpenAI Chat Completions request. -/
structure OAMsg where
  role : String
  content : String
deriving DecidableEq, Repr

/-- The request parameters seen by the patched create methods: the Chat
Completions message list (none when the field is absent), the Responses API
input field, the stream flag and the model. -/
structure OAParams where
  messages : Option (List OAMsg)
  input : Option String
  stream : Bool
  model : Option String
deriving DecidableEq, Repr

/-- The message of one choice of a Chat Completions response. -/
structure OAChoiceMsg where
  role : String
  content : String
deriving DecidableEq, Repr

/-- A non streaming OpenAI response: the choices (each reduced to its message),
the Responses API output field, and the reported model. -/
structure OAResponse where
  choices : List OAChoiceMsg
  output : Option String
  model : Option String
deriving DecidableEq, Repr

/-- One streaming chunk: choices[0].delta.content, the output_delta field and
the model field. -/
structure OAChunk where
  deltaContent : Option String
  outputDelta : Option String
  model : Option String
deriving DecidableEq, Repr

/-- What the stored original method returns: a single response, or the chunk
stream that the caller then consumes. -/
inductive OAResult where
  | batch (r : OAResponse)
  | stream (chunks : List OAChunk)
deriving DecidableEq, Repr

/-- extractUserMessages of OpenAIInterceptor: the contents of the user role
messages with truthy content, joined with newlines. -/
def extractUserMessagesOA (params : OAParams) : String :=
  match params.messages with
  | none => ""
  | some msgs =>
      joinSep "\n"
        ((msgs.filter (fun m => m.role == "user" && m.content != "")).map
          (fun m => m.content))

/-- extractAssistantMessage of OpenAIInterceptor: the first choice message
content when truthy, else the Responses API output when truthy, else empty. -/
def extractAssistantMessageOA (r : OAResponse) : String :=
  let first := match r.choices.head? with
    | some m => m.content
    | none => ""
  if first != "" then first
  else
    match r.output with
    | some o => if o != "" then o else ""
    | none => ""

/-- buildRequestMessages of OpenAIInterceptor. -/
def buildRequestMessagesOA (userMessage : String) : List Msg :=
  [{ role := "user", content := userMessage }]

/-- buildResponseDict of OpenAIInterceptor. -/
def buildResponseDictOA (r : OAResponse) : Msg :=
  { role := "assistant", content := extractAssistantMessageOA r }

/-- extractModelName of OpenAIInterceptor: response.model when truthy, else
the gpt-4o fallback. -/
def extractModelNameOA (r : OAResponse) : String :=
  match r.model with
  | some m => if m != "" then m else "gpt-4o"
  | none => "gpt-4o"

/-- injectMemoryContext of OpenAIInterceptor: into the Chat Completions
message list (prepending to every system message, or inserting a new leading
system message when none exists) and into the Responses API input field. -/
def injectMemoryContextOA (params : OAParams) (context : String) : OAParams :=
  if context = "" then params
  else
    let params1 : OAParams :=
      match params.messages with
      | none => params
      | some msgs =>
          if msgs.any (fun m => m.role == "system") then
            { params with messages := some (msgs.map (fun m =>
                if m.role == "system" then
                  { m with content := context ++ "\n\n" ++ m.content }
                else m)) }
          else
            { params with
                messages := some ({ role := "system", content := context } :: msgs) }
    match params1.input with
    | some i =>
        if i != "" then { params1 with input := some (context ++ "\n\n" ++ i) }
        else params1
    | none => params1

/-- The text contributed by one streaming chunk in buildResponseFromChunks of
OpenAIInterceptor: choices[0].delta.content when truthy, else output_delta
when truthy, else the empty string. -/
def chunkTextOA (c : OAChunk) : String :=
  match c.deltaContent with
  | some t =>
      if t != "" then t
      else
        match c.outputDelta with
        | some o => if o != "" then o else ""
        | none => ""
  | none =>
      match c.outputDelta with
      | some o => if o != "" then o else ""
      | none => ""

/-- buildResponseFromChunks of OpenAIInterceptor: join the chunk texts in
arrival order, with no separator, into a single assistant choice. -/
def buildResponseFromChunksOA (chunks : List OAChunk) : OAResponse :=
  { choices := [{ role := "assistant", content := joinAll (chunks.map chunkTextOA) }]
    output := none
    model := some (match chunks.head? with
      | some c =>
          match c.model with
          | some m => if m != "" then m else "gpt-4o"
          | none => "gpt-4o"
      | none => "gpt-4o") }

/-- interceptCreate of OpenAIInterceptor. The stored original method and the
extra request options are parameters; the original maps the (possibly
rewritten) request to a response or a thrown error. The returned pair is the
value or error delivered to the caller together with the effect trace; the
capture performed by the stream wrapper on stream exhaustion is folded into
the trace. -/
def interceptCreateOA {Opts : Type}
    (config : Option LearningConfig)
    (stored : Option (OAParams → Opts → Except String OAResult))
    (memCtx : Option String) (params : OAParams) (opts : Opts) :
    Except String OAResult × List Effect :=
  match config with
  | none =>
      match stored with
      | none => (Except.error "Original method not found", [])
      | some f => (f params opts, [])
  | some cfg =>
      let userMessage := extractUserMessagesOA params
      let inj := retrieveAndInjectMemory injectMemoryContextOA cfg memCtx params
      let params2 := inj.1
      let effs := inj.2
      match stored with
      | none => (Except.error "TypeError: originalMethod is not a function", effs)
      | some f =>
          match f params2 opts with
          | Except.error e => (Except.error e, effs)
          | Except.ok res =>
              if params2.stream then
                match res with
                | OAResult.stream chunks =>
                    let modelName := match params2.model with
                      | some m => if m != "" then m else "gpt-4o"
                      | none => "gpt-4o"
                    let capture :=
                      if chunks.length > 0 && userMessage != "" then
                        [Effect.captureTurn "openai" modelName
                          (buildRequestMessagesOA userMessage)
                          (buildResponseDictOA (buildResponseFromChunksOA chunks))]
                      else []
                    (Except.ok (OAResult.stream chunks), effs ++ capture)
                | OAResult.batch r =>
                    -- shape mismatch (stream flag with a non stream response)
                    -- cannot arise from the SDK; pass through
                    (Except.ok (OAResult.batch r), effs)
              else
                match res with
                | OAResult.batch r =>
                    (Except.ok (OAResult.batch r),
                      effs ++ [Effect.captureTurn "openai" (extractModelNameOA r)
                        (buildRequestMessagesOA userMessage)
                        (buildResponseDictOA r)])
                | OAResult.stream chunks =>
                    -- shape mismatch; pass through
                    (Except.ok (OAResult.stream chunks), effs)

/-! ## Anthropic interceptor (interceptors/anthropic.ts) -/

/-- One content block of a message or of the system parameter. -/
structure ABlock where
  btype : String
  text : String
deriving DecidableEq, Repr

/-- Content of an Anthropic request message: a plain string, a block list, or
some other shape that the extractor skips. -/
inductive AContent where
  | str (s : String)
  | blocks (bs : List ABlock)
  | other
deriving DecidableEq, Repr

structure AMsg where
  role : String
  content : AContent
deriving DecidableEq, Repr

/-- The system parameter: absent, a plain string, or a block list. -/
inductive ASystem where
  | absent
  | str (s : String)
  | blocks (bs : List ABlock)
deriving DecidableEq, Repr

structure AParams where
  messages : Option (List AMsg)
  system : ASystem
  stream : Bool
  model : Option String
deriving DecidableEq, Repr

structure AResponse where
  content : Option (List ABlock)
  model : Option String
deriving DecidableEq, Repr

/-- One Anthropic stream event: its type, delta.text of content_block_delta
events, and the message field of message_start events reduced to presence and
model. -/
structure AChunk where
  ctype : String
  deltaText : Option String
  hasMessage : Bool
  messageModel : Option String
deriving DecidableEq, Repr

inductive AResult where
  | batch (r : AResponse)
  | stream (chunks : List AChunk)
deriving DecidableEq, Repr

/-- The entry that one request message contributes in extractUserMessages of
AnthropicInterceptor: the string content as is, the space joined texts of the
text type blocks of a block list content, nothing for other shapes. -/
def userTextA : AContent → Option String
  | AContent.str s => some s
  | AContent.blocks bs =>
      some (joinSep " " ((bs.filter (fun b => b.btype == "text")).map
        (fun b => b.text)))
  | AContent.other => none

/-- extractUserMessages of AnthropicInterceptor: the entries of the user role
messages joined with newlines. -/
def extractUserMessagesA (params : AParams) : String :=
  match params.messages with
  | none => ""
  | some msgs =>
      joinSep "\n" (msgs.filterMap (fun m =>
        if m.role == "user" then userTextA m.content else none))

/-- extractAssistantMessage of AnthropicInterceptor: texts of the text type
blocks with truthy text, joined with spaces. -/
def extractAssistantMessageA (r : AResponse) : String :=
  match r.content with
  | none => ""
  | some bs =>
      joinSep " " ((bs.filter (fun b => b.btype == "text" && b.text != "")).map
        (fun b => b.text))

/-- buildRequestMessages of AnthropicInterceptor. -/
def buildRequestMessagesA (userMessage : String) : List Msg :=
  [{ role := "user", content := userMessage }]

/-- buildResponseDict of AnthropicInterceptor. -/
def buildResponseDictA (r : AResponse) : Msg :=
  { role := "assistant", content := extractAssistantMessageA r }

/-- extractModelName of AnthropicInterceptor. -/
def extractModelNameA (r : AResponse) : String :=
  match r.model with
  | some m => if m != "" then m else "claude-3-5-sonnet-20241022"
  | none => "claude-3-5-sonnet-20241022"

/-- injectMemoryContext of AnthropicInterceptor: prepend to a truthy string
system parameter, cons a text block onto a block list system parameter, and
set the system parameter to the context when it is absent or falsy. -/
def injectMemoryContextA (params : AParams) (context : String) : AParams :=
  if context = "" then params
  else
    match params.system with
    | ASystem.str s =>
        if s != "" then
          { params with system := ASystem.str (context ++ "\n\n" ++ s) }
        else { params with system := ASystem.str context }
    | ASystem.blocks bs =>
        { params with
            system := ASystem.blocks ({ btype := "text", text := context } :: bs) }
    | ASystem.absent => { params with system := ASystem.str context }

/-- The text fragment of one stream event in buildResponseFromChunks of
AnthropicInterceptor: delta.text of content_block_delta events when truthy. -/
def fragA (c : AChunk) : Option String :=
  if c.ctype == "content_block_delta" then
    match c.deltaText with
    | some t => if t != "" then some t else none
    | none => none
  else none

/-- buildResponseFromChunks of AnthropicInterceptor: concatenate the delta
texts in arrival order into a single text block; the model comes from the last
message_start event carrying a message. -/
def buildResponseFromChunksA (chunks : List AChunk) : AResponse :=
  { content := some [{ btype := "text", text := joinAll (chunks.filterMap fragA) }]
    model := some (match (chunks.filter (fun c =>
        c.ctype == "message_start" && c.hasMessage)).getLast? with
      | some c =>
          match c.messageModel with
          | some m => if m != "" then m else "claude-3-5-sonnet-20241022"
          | none => "claude-3-5-sonnet-20241022"
      | none => "claude-3-5-sonnet-20241022") }

/-- interceptCreate of AnthropicInterceptor, embedded exactly like the OpenAI
one: pass through without a scope, otherwise inject memory, call the stored
original, and capture the turn (immediately, or on stream exhaustion through
the stream wrapper, folded into the effect trace). -/
def interceptCreateA {Opts : Type}
    (config : Option LearningConfig)
    (stored : Option (AParams → Opts → Except String AResult))
    (memCtx : Option String) (params : AParams) (opts : Opts) :
    Except String AResult × List Effect :=
  match config with
  | none =>
      match stored with
      | none => (Except.error "Original method not found", [])
      | some f => (f params opts, [])
  | some cfg =>
      let userMessage := extractUserMessagesA params
      let inj := retrieveAndInjectMemory injectMemoryContextA cfg memCtx params
      let params2 := inj.1
      let effs := inj.2
      match stored with
      | none => (Except.error "TypeError: originalMethod is not a function", effs)
      | some f =>
          match f params2 opts with
          | Except.error e => (Except.error e, effs)
          | Except.ok res =>
              if params2.stream then
                match res with
                | AResult.stream chunks =>
                    let modelName := match params2.model with
                      | some m => if m != "" then m else "claude-3-5-sonnet-20241022"
                      | none => "claude-3-5-sonnet-20241022"
                    let capture :=
                      if chunks.length > 0 && userMessage != "" then
                        [Effect.captureTurn "anthropic" modelName
                          (buildRequestMessagesA userMessage)
                          (buildResponseDictA (buildResponseFromChunksA chunks))]
                      else []
                    (Except.ok (AResult.stream chunks), effs ++ capture)
                | AResult.batch r =>
                    -- shape mismatch; pass through
                    (Except.ok (AResult.batch r), effs)
              else
                match res with
                | AResult.batch r =>
                    (Except.ok (AResult.batch r),
                      effs ++ [Effect.captureTurn "anthropic" (extractModelNameA r)
                        (buildRequestMessagesA userMessage)
                        (buildResponseDictA r)])
                | AResult.stream chunks =>
                    -- shape mismatch; pass through
                    (Except.ok (AResult.stream chunks), effs)

/-! ## Gemini interceptor -/

/-- One part of a Gemini content item. -/
structure GPart where
  text : Option String
deriving DecidableEq, Repr

/-- One entry of a Gemini contents array: a plain string, or an object with an
optional role, an optional parts array and an optional text field. -/
inductive GItem where
  | plainStr (s : String)
  | obj (role : Option String) (parts : Option (List GPart)) (text : Option String)
deriving DecidableEq, Repr

/-- The contents of a Gemini request: a plain string, an array of items, or
some other shape that the extractor maps to the empty string. -/
inductive GContents where
  | strv (s : String)
  | items (l : List GItem)
  | other
deriving DecidableEq, Repr

/-- A Gemini request: either an object carrying a contents field, or the raw
contents value itself. -/
inductive GRequest where
  | obj (contents : GContents)
  | raw (contents : GContents)
deriving DecidableEq, Repr

/-- The normalization shared by the Gemini extractor and injector: an object
request is reduced to its contents field, a raw request is its own contents. -/
def GRequest.contents : GRequest → GContents
  | GRequest.obj c => c
  | GRequest.raw c => c

/-- The texts one contents item contributes in extractUserMessages of
GeminiInterceptor: a plain string as is, the truthy texts of its parts when a
parts array is present, else its truthy text field. The role of the item is
never consulted. -/
def gItemTexts : GItem → List String
  | GItem.plainStr s => [s]
  | GItem.obj _ parts text =>
      match parts with
      | some ps =>
          ps.filterMap (fun p =>
            match p.text with
            | some t => if t != "" then some t else none
            | none => none)
      | none =>
          match text with
          | some t => if t != "" then [t] else []
          | none => []

/-- The accumulation loop of extractUserMessages of GeminiInterceptor. -/
def collectTextsG : List GItem → List String
  | [] => []
  | i :: rest => gItemTexts i ++ collectTextsG rest

/-- extractUserMessages of GeminiInterceptor: normalize the request to its
contents, then a plain string is returned as is, an item array is collected
and joined with newlines, anything else gives the empty string. -/
def extractUserMessagesG (request : GRequest) : String :=
  match request.contents with
  | GContents.strv s => s
  | GContents.items l => joinSep "\n" (collectTextsG l)
  | GContents.other => ""

/-- The contents rewrite of injectMemoryContext of GeminiInterceptor. -/
def injectContentsG : GContents → String → GContents
  | GContents.strv s, ctx => GContents.strv (ctx ++ "\n\n" ++ s)
  | GContents.items l, ctx => GContents.items (GItem.plainStr ctx :: l)
  | GContents.other, _ => GContents.other

/-- injectMemoryContext of GeminiInterceptor: prepend to string contents, cons
the raw context string onto array contents, and return the result in the same
shape (object with contents field, or raw contents) as the input. -/
def injectMemoryContextG (request : GRequest) (context : String) : GRequest :=
  if context = "" then request
  else
    match request with
    | GRequest.obj c => GRequest.obj (injectContentsG c context)
    | GRequest.raw c => GRequest.raw (injectContentsG c context)

/-- A Gemini response, reduced to the text accessors the extractor consults:
the text of the nested response object, the own text method, and the parts of
the first candidate. -/
structure GResponse where
  responseText : Option String
  textFn : Option String
  candParts : Option (List GPart)
deriving DecidableEq, Repr

/-- extractAssistantMessage of GeminiInterceptor: the nested response text
when present, else the own text method result, else the newline joined truthy
part texts of the first candidate. -/
def extractAssistantMessageG (r : GResponse) : String :=
  match r.responseText with
  | some t => t
  | none =>
      match r.textFn with
      | some t => t
      | none =>
          match r.candParts with
          | some ps =>
              joinSep "\n" (ps.filterMap (fun p =>
                match p.text with
                | some t => if t != "" then some t else none
                | none => none))
          | none => ""

/-- buildRequestMessages of GeminiInterceptor. -/
def buildRequestMessagesG (userMessage : String) : List Msg :=
  [{ role := "user", content := userMessage }]

/-- buildResponseDict of GeminiInterceptor. -/
def buildResponseDictG (r : GResponse) : Msg :=
  { role := "assistant", content := extractAssistantMessageG r }

/-- Split a character list on a separator, in the manner of the split method
of JavaScript strings. -/
def splitOnCharG (sep : Char) : List Char → List (List Char)
  | [] => [[]]
  | c :: rest =>
      let r := splitOnCharG sep rest
      if c = sep then [] :: r
      else
        match r with
        | [] => [[c]]
        | grp :: gs => (c :: grp) :: gs

/-- extractModelName of GeminiInterceptor: the model of the model instance
when truthy, else the fallback default; a path such as models/x is reduced to
its last slash separated component when that component is truthy. -/
def extractModelNameG (instanceModel : Option String) : String :=
  let base := match instanceModel with
    | some m => if m != "" then m else "gemini-2.0-flash-exp"
    | none => "gemini-2.0-flash-exp"
  let parts := splitOnCharG ('/') base.data
  if parts.length ≥ 2 then
    match parts.getLast? with
    | some l => if l.length > 0 then String.mk l else base
    | none => base
  else base

/-- interceptGenerateContent of GeminiInterceptor: pass through without a
scope, otherwise inject memory, call the stored original and capture the
turn. -/
def interceptGenerateContentG
    (config : Option LearningConfig)
    (stored : Option (GRequest → Except String GResponse))
    (memCtx : Option String) (instanceModel : Option String)
    (request : GRequest) :
    Except String GResponse × List Effect :=
  match config with
  | none =>
      match stored with
      | none => (Except.error "Original method not found", [])
      | some f => (f request, [])
  | some cfg =>
      let userMessage := extractUserMessagesG request
      let inj := retrieveAndInjectMemory injectMemoryContextG cfg memCtx request
      let request2 := inj.1
      let effs := inj.2
      match stored with
      | none => (Except.error "TypeError: originalMethod is not a function", effs)
      | some f =>
          match f request2 with
          | Except.error e => (Except.error e, effs)
          | Except.ok r =>
              (Except.ok r,
                effs ++ [Effect.captureTurn "gemini" (extractModelNameG instanceModel)
                  (buildRequestMessagesG userMessage)
                  (buildResponseDictG r)])

/-! ## Claude Agent SDK interceptor (interceptors/claude.ts) -/

/-- A method slot on a patchable prototype: the SDK original or the wrapper
installed by an interceptor. -/
inductive MethodV where
  | orig
  | patched
deriving DecidableEq, Repr

/-- The mutable method surface of SubprocessCLITransport: the exported
constructor and the write and readMessages prototype slots. -/
structure TransportClass where
  construct : MethodV
  write : MethodV
  readMessages : MethodV
deriving DecidableEq, Repr

/-- install of ClaudeInterceptor, as it affects the transport class: the local
PatchedConstructor closure is built but never assigned to the SDK export, so
the construct slot is left untouched, while the write and readMessages
prototype slots are overwritten with the wrappers. -/
def claudeInstallPatch (t : TransportClass) : TransportClass :=
  { t with write := MethodV.patched, readMessages := MethodV.patched }

/-- A JavaScript value as consulted by the Claude injection path: undefined, a
string, or the pending Promise returned by an async call. -/
inductive JsVal where
  | undef
  | strv (s : String)
  | promiseOf (result : Option String)
deriving DecidableEq, Repr

/-- JavaScript truthiness over JsVal. -/
def truthyJs : JsVal → Bool
  | JsVal.undef => false
  | JsVal.strv s => s != ""
  | JsVal.promiseOf _ => true

/-- Template literal stringification of a JsVal. -/
def jsToString : JsVal → String
  | JsVal.undef => "undefined"
  | JsVal.strv s => s
  | JsVal.promiseOf _ => "[object Promise]"

/-- The systemPrompt option of the Claude Agent SDK: absent, a direct value,
or an object carrying an append field. -/
inductive SystemPromptV where
  | absent
  | val (v : JsVal)
  | appendField (a : JsVal)
deriving DecidableEq, Repr

structure ClaudeOptions where
  systemPrompt : SystemPromptV
deriving DecidableEq, Repr

/-- injectMemoryIntoOptions of ClaudeInterceptor. The retrieve call on the
memory context client is an async method invoked here without await, so the
memoryContext binding holds the pending Promise (promiseOf the eventual
reply), never the resolved string; the Promise is truthy and is what gets
spliced into the system prompt by the template literal. -/
def injectMemoryIntoOptions (retrieveResult : Option String)
    (config : LearningConfig) (options : ClaudeOptions) : ClaudeOptions :=
  if config.captureOnly then options
  else if !config.hasClient then options
  else if config.agentName == "" then options
  else
    let memoryContext : JsVal := JsVal.promiseOf retrieveResult
    if !(truthyJs memoryContext) then options
    else
      let spTruthy : Bool :=
        match options.systemPrompt with
        | SystemPromptV.absent => false
        | SystemPromptV.val v => truthyJs v
        | SystemPromptV.appendField _ => true
      if spTruthy then
        match options.systemPrompt with
        | SystemPromptV.val (JsVal.strv s) =>
            { options with systemPrompt :=
                SystemPromptV.val (JsVal.strv
                  (jsToString memoryContext ++ "\n\n" ++ s)) }
        | SystemPromptV.appendField a =>
            { options with systemPrompt :=
                SystemPromptV.appendField (JsVal.strv
                  (jsToString memoryContext ++ "\n\n" ++ jsToString a)) }
        | _ => options
      else { options with systemPrompt := SystemPromptV.val memoryContext }

/-- The parsed shape of one outgoing transport message: its type and the
content of its inner message (empty when absent). -/
structure TransportMsg where
  mtype : String
  content : String
deriving DecidableEq, Repr

/-- captureOutgoingMessage of ClaudeInterceptor: on a parsed user message with
truthy content, the content is written into the pendingUserMessage field of
the active configuration object; parse failures and other message types leave
the configuration unchanged. -/
def captureOutgoingMessage (parsed : Option TransportMsg)
    (config : LearningConfig) : LearningConfig :=
  match parsed with
  | none => config
  | some m =>
      if m.mtype == "user" then
        if m.content != "" then { config with pendingUserMessage := some m.content }
        else config
      else config

/-- One incoming transport message: its type and the content blocks of its
inner message (empty when absent). -/
structure IncomingMsg where
  mtype : String
  contentBlocks : List ABlock
deriving DecidableEq, Repr

/-- The assistant texts accumulated by wrapMessageIterator: for every incoming
assistant message, the truthy texts of its text type blocks, in order. -/
def accumulatedTextClaude : List IncomingMsg → List String
  | [] => []
  | m :: rest =>
      (if m.mtype == "assistant" then
        (m.contentBlocks.filter (fun b => b.btype == "text" && b.text != "")).map
          (fun b => b.text)
      else []) ++ accumulatedTextClaude rest

/-- buildRequestMessages of ClaudeInterceptor. -/
def buildRequestMessagesClaude (userMessage : String) : List Msg :=
  [{ role := "user", content := userMessage }]

/-- The finally block of wrapMessageIterator of ClaudeInterceptor: after the
iterator is exhausted the buffered user message and the accumulated assistant
text are combined into one turn; when at least one of them is present the
turn is dispatched and the pendingUserMessage buffer of the configuration
object is cleared. -/
def wrapIteratorFinalize (incoming : List IncomingMsg)
    (config : LearningConfig) : LearningConfig × List Effect :=
  let texts := accumulatedTextClaude incoming
  let userMessage := config.pendingUserMessage
  let hasUser : Bool := match userMessage with
    | some s => s != ""
    | none => false
  let hasAssistant : Bool := decide (texts.length > 0)
  if hasUser || hasAssistant then
    ({ config with pendingUserMessage := none },
      [Effect.captureTurn "claude" "claude"
        (match userMessage with
          | some s => if s != "" then buildRequestMessagesClaude s else []
          | none => [])
        { role := "assistant",
          content := if hasAssistant then joinAll texts else "" }])
  else (config, [])

/-- The patched write of the transport: with no scope the original write is
called with the unmodified data and nothing else happens; with a scope the
outgoing message is captured into the configuration first and the original
write still receives the unmodified data. The pair is the configuration after
the call and the data handed to the original write. -/
def patchedWrite (parseJson : String → Option TransportMsg)
    (config : Option LearningConfig) (data : String) :
    Option LearningConfig × String :=
  match config with
  | none => (none, data)
  | some cfg => (some (captureOutgoingMessage (parseJson data) cfg), data)

/-- The patched readMessages of the transport: with no scope the original
iterator is returned unwrapped; with a scope the wrapper yields every message
unchanged and runs the finalizer at exhaustion. The triple is the messages
seen by the caller, the effect trace, and the configuration afterwards. -/
def patchedReadMessages (config : Option LearningConfig)
    (incoming : List IncomingMsg) :
    List IncomingMsg × List Effect × Option LearningConfig :=
  match config with
  | none => (incoming, [], none)
  | some cfg =>
      let fin := wrapIteratorFinalize incoming cfg
      (incoming, fin.2, some fin.1)

/-- C1: with no active scope every patched entry point behaves exactly like
the stored original: the original receives the same arguments, its result or
thrown error is returned unmodified, and no memory retrieval, injection or
capture dispatch occurs (the effect trace is empty). Covers the OpenAI and
Anthropic create interceptors, the Gemini generateContent interceptor and the
Claude transport write and readMessages patches. -/
theorem c1_transparency {Opts : Type}
    (f : OAParams → Opts → Except String OAResult)
    (g : AParams → Opts → Except String AResult)
    (h : GRequest → Except String GResponse)
    (memCtx : Option String) (p : OAParams) (q : AParams) (r : GRequest)
    (opts : Opts) (instanceModel : Option String)
    (parseJson : String → Option TransportMsg) (data : String)
    (incoming : List IncomingMsg) :
    interceptCreateOA none (some f) memCtx p opts = (f p opts, [])
    ∧ interceptCreateA none (some g) memCtx q opts = (g q opts, [])
    ∧ interceptGenerateContentG none (some h) memCtx instanceModel r = (h r, [])
    ∧ patchedWrite parseJson none data = (none, data)
    ∧ patchedReadMessages none incoming = (incoming, [], none) :=
  ⟨rfl, rfl, rfl, rfl, rfl⟩

/-! ## Install state (interceptors/openai.ts install, anthropic.ts
tryPatchAnthropic) -/

/-- The patch state of a create surface: the create slot of the prototype and
the originalMethods entry of the interceptor instance. -/
structure OAInstallState where
  protoCreate : MethodV
  stored : Option MethodV
deriving DecidableEq, Repr

/-- install of OpenAIInterceptor for the completions.create slot: the current
prototype method is stored unconditionally, then the slot is overwritten with
the wrapper. -/
def openaiInstall (s : OAInstallState) : OAInstallState :=
  { protoCreate := MethodV.patched, stored := some s.protoCreate }

/-- uninstall of OpenAIInterceptor: the stored entry, when present, is written
back into the prototype slot. -/
def openaiUninstall (s : OAInstallState) : OAInstallState :=
  match s.stored with
  | some m => { s with protoCreate := m }
  | none => s

/-- tryPatchAnthropic of AnthropicInterceptor: the current prototype method is
stored only when no entry exists yet, then the slot is overwritten with the
wrapper. -/
def tryPatchAnthropic (s : OAInstallState) : OAInstallState :=
  { protoCreate := MethodV.patched,
    stored := match s.stored with
      | some m => some m
      | none => some s.protoCreate }

/-- C5: evaluation at the failing input. Starting from an unpatched prototype,
a second OpenAI install overwrites the stored original with the already
patched wrapper, so uninstall restores the wrapper instead of the true
original; the guarded Anthropic tryPatchAnthropic keeps the true original
across a second install. -/
theorem c5_double_install_bug :
    (openaiInstall (openaiInstall
        { protoCreate := MethodV.orig, stored := none })).stored
      = some MethodV.patched
    ∧ (openaiUninstall (openaiInstall (openaiInstall
        { protoCreate := MethodV.orig, stored := none }))).protoCreate
      = MethodV.patched
    ∧ MethodV.patched ≠ MethodV.orig
    ∧ (tryPatchAnthropic (tryPatchAnthropic
        { protoCreate := MethodV.orig, stored := none })).stored
      = some MethodV.orig :=
  ⟨rfl, rfl, by decide, rfl⟩

/-- C6: evaluation at the failing input. The Claude constructor patch is never
installed: install leaves the construct slot of the transport class untouched,
so the injection of memory at transport construction never runs through the
patch; and injectMemoryIntoOptions itself, run for a concrete active scope
with memory available, writes the pending Promise into the system prompt
(stringified to an object Promise marker when a prompt already exists), never
the formatted memory text. -/
theorem c6_injection_bug :
    (∀ t : TransportClass, (claudeInstallPatch t).construct = t.construct)
    ∧ (injectMemoryIntoOptions (some "formatted memory")
        { agentName := "a1", hasClient := true, captureOnly := false,
          memory := [], model := none }
        { systemPrompt := SystemPromptV.absent }).systemPrompt
      = SystemPromptV.val (JsVal.promiseOf (some "formatted memory"))
    ∧ (injectMemoryIntoOptions (some "formatted memory")
        { agentName := "a1", hasClient := true, captureOnly := false,
          memory := [], model := none }
        { systemPrompt := SystemPromptV.absent }).systemPrompt
      ≠ SystemPromptV.val (JsVal.strv "formatted memory")
    ∧ (injectMemoryIntoOptions (some "formatted memory")
        { agentName := "a1", hasClient := true, captureOnly := false,
          memory := [], model := none }
        { systemPrompt := SystemPromptV.val (JsVal.strv "base prompt") }).systemPrompt
      = SystemPromptV.val (JsVal.strv ("[object Promise]\n\nbase prompt")) :=
  ⟨fun _ => rfl, rfl, by decide, rfl⟩

/-- C4 counterexample: the Claude transport capture mutates the active
configuration object: capturing a parsed outgoing user message writes its
content into the pendingUserMessage field, so the configuration after the
call differs from the configuration before it. -/
theorem c4_config_mutation_counterexample :
    captureOutgoingMessage (some { mtype := "user", content := "hi" })
        { agentName := "a1", hasClient := true, captureOnly := false,
          memory := [], model := none }
      ≠ { agentName := "a1", hasClient := true, captureOnly := false,
          memory := [], model := none } := by decide

/-- C4 amended: apart from the pendingUserMessage buffer written by the
Claude transport capture, configurations are never mutated:
captureOutgoingMessage and the iterator finalizer change at most the
pendingUserMessage field and preserve every scope field (agent name, client,
capture only flag, memory selection, model), and scope exit only changes
which configuration is current, never the contents of a configuration
value. -/
theorem c4_amended_only_pending_buffer (parsed : Option TransportMsg)
    (cfg : LearningConfig) (incoming : List IncomingMsg)
    (saved : Option LearningConfig) (st : ScopeState) :
    captureOutgoingMessage parsed cfg
      = { cfg with pendingUserMessage :=
            (captureOutgoingMessage parsed cfg).pendingUserMessage }
    ∧ (wrapIteratorFinalize incoming cfg).1
      = { cfg with pendingUserMessage :=
            ((wrapIteratorFinalize incoming cfg).1).pendingUserMessage }
    ∧ scopeExit saved st = { current := saved } := by
  refine ⟨?_, ?_, rfl⟩
  · cases parsed with
    | none => rfl
    | some m =>
        simp only [captureOutgoingMessage]
        split
        · split
          · rfl
          · rfl
        · rfl
  · unfold wrapIteratorFinalize
    dsimp only
    split
    · rfl
    · rfl

/-! ## Memory formatter (client/memory/context.ts) -/

/-- A memory block as read from the memory service. -/
structure MemoryBlock where
  id : String
  label : String
  value : String
  description : Option String
deriving DecidableEq, Repr

/-- The lines one block contributes in formatMemoryBlocks: blocks with falsy
value are skipped; a truthy description contributes its own line. -/
def blockLines (b : MemoryBlock) : List String :=
  if b.value = "" then []
  else
    ["<" ++ b.label ++ ">"]
    ++ (match b.description with
        | some d =>
            if d != "" then ["<description>" ++ d ++ "</description>"] else []
        | none => [])
    ++ ["<value>" ++ b.value ++ "</value>", "</" ++ b.label ++ ">"]

/-- The accumulation loop of formatMemoryBlocks over the block list. -/
def formattedLines : List MemoryBlock → List String
  | [] => []
  | b :: rest => blockLines b ++ formattedLines rest

/-- formatMemoryBlocks from client/memory/context.ts: null for an empty
list, null when no line was produced, otherwise the newline joined lines
wrapped in the memory blocks marker. -/
def formatMemoryBlocks (blocks : List MemoryBlock) : Option String :=
  if blocks.length = 0 then none
  else if (formattedLines blocks).length = 0 then none
  else
    some ("<memory_blocks>\nThe following memory blocks are currently engaged:\n"
      ++ joinSep "\n" (formattedLines blocks) ++ "\n</memory_blocks>")

/-- One labeled, tag delimited section per block, as the claim describes it:
label line, optional description line, value line, closing label line. -/
def sectionLines (b : MemoryBlock) : List String :=
  ["<" ++ b.label ++ ">"]
  ++ (match b.description with
      | some d =>
          if d != "" then ["<description>" ++ d ++ "</description>"] else []
      | none => [])
  ++ ["<value>" ++ b.value ++ "</value>", "</" ++ b.label ++ ">"]

theorem blockLines_of_empty (b : MemoryBlock) (h : b.value = "") :
    blockLines b = [] := by
  unfold blockLines
  simp [h]

theorem blockLines_eq_sectionLines (b : MemoryBlock) (h : ¬ b.value = "") :
    blockLines b = sectionLines b := by
  unfold blockLines sectionLines
  simp [h]

theorem formattedLines_eq (blocks : List MemoryBlock) :
    formattedLines blocks
      = (((blocks.filter (fun b => b.value != "")).map sectionLines)).flatten := by
  induction blocks with
  | nil => rfl
  | cons b rest ih =>
      by_cases h : b.value = ""
      · simp [formattedLines, blockLines_of_empty b h, ih, List.filter_cons, h]
      · simp [formattedLines, blockLines_eq_sectionLines b h, ih,
          List.filter_cons, h]

theorem formattedLines_nil_iff (blocks : List MemoryBlock) :
    formattedLines blocks = [] ↔ blocks.all (fun b => b.value == "") = true := by
  induction blocks with
  | nil => simp [formattedLines]
  | cons b rest ih =>
      by_cases h : b.value = ""
      · simp [formattedLines, blockLines_of_empty b h, ih, h]
      · have hne : blockLines b ≠ [] := by
          unfold blockLines
          simp [h]
        simp [formattedLines, h, hne, ih]

/-- C8: the formatter returns none exactly when the list is empty or every
block has an empty value, and otherwise returns the newline joined sections,
one labeled tag delimited section per block with a non empty value, in input
order, wrapped in the outer memory blocks marker; as a pure function of the
block list it is deterministic. -/
theorem c8_formatter (blocks : List MemoryBlock) :
    formatMemoryBlocks blocks =
      if blocks.all (fun b => b.value == "") then none
      else
        some ("<memory_blocks>\nThe following memory blocks are currently engaged:\n"
          ++ joinSep "\n"
              (((blocks.filter (fun b => b.value != "")).map sectionLines)).flatten
          ++ "\n</memory_blocks>") := by
  have hl := formattedLines_eq blocks
  have hn := formattedLines_nil_iff blocks
  by_cases hall : blocks.all (fun b => b.value == "") = true
  · have hempty : formattedLines blocks = [] := hn.mpr hall
    simp [formatMemoryBlocks, hall, hempty, ite_self]
  · have hne : formattedLines blocks ≠ [] := fun hc => hall (hn.mp hc)
    have hblocks : blocks ≠ [] := by
      rintro rfl
      exact hall (by simp)
    simp only [formatMemoryBlocks, hall, if_false]
    rw [if_neg (by simpa [List.length_eq_zero] using hblocks),
      if_neg (by simpa [List.length_eq_zero] using hne), hl]
    simp

/-! ## Streaming reconstruction (C9) -/

/-- The optional text fragment of one OpenAI chunk: choices[0].delta.content
when truthy, else output_delta when truthy, else nothing. -/
def fragOA (c : OAChunk) : Option String :=
  match c.deltaContent with
  | some t =>
      if t != "" then some t
      else
        match c.outputDelta with
        | some o => if o != "" then some o else none
        | none => none
  | none =>
      match c.outputDelta with
      | some o => if o != "" then some o else none
      | none => none

theorem chunkTextOA_eq_frag (c : OAChunk) :
    chunkTextOA c = (fragOA c).getD "" := by
  unfold chunkTextOA fragOA
  rcases c with ⟨dc, od, m⟩
  rcases dc with _ | t <;> rcases od with _ | o <;> dsimp <;> split_ifs <;> rfl

theorem joinAll_map_eq_filterMap (l : List OAChunk) :
    joinAll (l.map chunkTextOA) = joinAll (l.filterMap fragOA) := by
  induction l with
  | nil => rfl
  | cons c rest ih =>
      rw [List.map_cons, List.filterMap_cons]
      cases hfc : fragOA c with
      | none =>
          have hc : chunkTextOA c = "" := by rw [chunkTextOA_eq_frag, hfc]; rfl
          rw [joinAll, hc, ih, String.empty_append]
      | some t =>
          have hc : chunkTextOA c = t := by rw [chunkTextOA_eq_frag, hfc]; rfl
          rw [joinAll, hc, ih, joinAll]

/-- C9: reconstruction from streaming chunks yields an assistant message
whose text is the concatenation, in arrival order and with no separator, of
the text fragments extracted from each chunk, chunks yielding no text being
skipped; this holds for any number of chunks (zero, one or many), for both
the OpenAI and the Anthropic reconstruction, and is deterministic in the
chunk sequence since the reconstruction is a pure function of it. -/
theorem c9_stream_reconstruction (oc : List OAChunk) (ac : List AChunk) :
    buildResponseDictOA (buildResponseFromChunksOA oc)
      = { role := "assistant", content := joinAll (oc.filterMap fragOA) }
    ∧ buildResponseDictA (buildResponseFromChunksA ac)
      = { role := "assistant", content := joinAll (ac.filterMap fragA) } := by
  constructor
  · unfold buildResponseDictOA buildResponseFromChunksOA extractAssistantMessageOA
    dsimp only
    rw [joinAll_map_eq_filterMap]
    by_cases h : joinAll (oc.filterMap fragOA) = ""
    · simp [h]
    · simp [h]
  · unfold buildResponseDictA buildResponseFromChunksA extractAssistantMessageA
    dsimp only
    by_cases h : joinAll (ac.filterMap fragA) = ""
    · simp [h, joinSep, List.filter_cons]
    · simp [h, joinSep, List.filter_cons]

/-! ## The injection rule of claim C7 -/

/-- The first disjunct of the message list rule as claim C7 states it: a new
leading system entry carrying the memory text is inserted in front of the
existing messages. -/
def newLeadingSystemEntry (context : String) (msgs out : List OAMsg) : Prop :=
  out = { role := "system", content := context } :: msgs

/-- The second disjunct of the message list rule as claim C7 states it: the
memory text is merged into an existing leading instruction entry, leaving the
remaining messages untouched. -/
def mergedIntoLeadingEntry (context : String) (msgs out : List OAMsg) : Prop :=
  ∃ first rest, msgs = first :: rest ∧ first.role = "system"
    ∧ out = { first with content := context ++ "\n\n" ++ first.content } :: rest

/-- The message list rule of claim C7 as stated. -/
def c7MessageListRule (context : String) (msgs out : List OAMsg) : Prop :=
  newLeadingSystemEntry context msgs out ∨ mergedIntoLeadingEntry context msgs out

/-- A request whose system message is not the leading entry. -/
def c7Msgs : List OAMsg :=
  [{ role := "user", content := "hi" }, { role := "system", content := "be brief" }]

def c7Params : OAParams :=
  { messages := some c7Msgs, input := none, stream := false, model := none }

def c7Out : List OAMsg :=
  ((injectMemoryContextOA c7Params "MEM").messages).getD []

/-- C7 counterexample: on a request whose only system message is not the
leading entry, the OpenAI injection merges the memory text into that non
leading system message: the output differs from the input, yet no new leading
system entry was inserted and the merge target is not a leading entry, so the
rule as the claim states it fails at this input. -/
theorem c7_leading_rule_counterexample :
    c7Out = [{ role := "user", content := "hi" },
             { role := "system", content := "MEM\n\nbe brief" }]
    ∧ c7Out ≠ c7Msgs
    ∧ ¬ c7MessageListRule "MEM" c7Msgs c7Out := by
  refine ⟨by decide, by decide, ?_⟩
  rintro (h | ⟨first, rest, hm, hrole, hout⟩)
  · have h2 : c7Out = ({ role := "system", content := "MEM" } : OAMsg) :: c7Msgs := h
    exact absurd h2 (by decide)
  · have hm2 : ([{ role := "user", content := "hi" },
        { role := "system", content := "be brief" }] : List OAMsg) = first :: rest := hm
    injection hm2 with h1 h2
    rw [← h1] at hrole
    exact absurd hrole (by decide)

/-- C7 amended: for every non empty memory text, a dedicated system or
instruction field is prepended to (the Anthropic system parameter being
created when absent or falsy, and a block list system parameter receiving a
leading text block), and a message list receives the memory text merged into
every existing system entry wherever it appears or, when no system entry
exists, a new leading system entry; no message is removed and non system
entries are unchanged. -/
theorem c7_injection_amended (ctx : String) (pm : OAParams) (pa : AParams)
    (msgs : List OAMsg) (hctx : ¬ ctx = "") (hm : pm.messages = some msgs) :
    (injectMemoryContextOA pm ctx).messages
      = some (if msgs.any (fun m => m.role == "system") then
          msgs.map (fun m =>
            if m.role == "system" then
              { m with content := ctx ++ "\n\n" ++ m.content }
            else m)
        else { role := "system", content := ctx } :: msgs)
    ∧ ((injectMemoryContextOA pm ctx).messages.getD []).length ≥ msgs.length
    ∧ (injectMemoryContextA pa ctx).system
      = (match pa.system with
        | ASystem.absent => ASystem.str ctx
        | ASystem.str s =>
            if s = "" then ASystem.str ctx
            else ASystem.str (ctx ++ "\n\n" ++ s)
        | ASystem.blocks bs =>
            ASystem.blocks ({ btype := "text", text := ctx } :: bs)) := by
  obtain ⟨pmm, pmi, pms, pmmo⟩ := pm
  obtain rfl : pmm = some msgs := hm
  have hoa : (injectMemoryContextOA ⟨some msgs, pmi, pms, pmmo⟩ ctx).messages
      = some (if msgs.any (fun m => m.role == "system") then
          msgs.map (fun m =>
            if m.role == "system" then
              { m with content := ctx ++ "\n\n" ++ m.content }
            else m)
        else { role := "system", content := ctx } :: msgs) := by
    unfold injectMemoryContextOA
    rw [if_neg hctx]
    dsimp only
    split
    · split
      · split <;> rfl
      · split <;> rfl
    · split <;> rfl
  refine ⟨hoa, ?_, ?_⟩
  · rw [hoa]
    cases hany : msgs.any (fun m => m.role == "system") with
    | true => simp
    | false => simp
  · unfold injectMemoryContextA
    rw [if_neg hctx]
    cases hsys : pa.system with
    | absent => rfl
    | str s =>
        by_cases hs : s = ""
        · simp [hs]
        · simp [hs]
    | blocks bs => rfl

/-- C7 witness: the amended statement evaluated at a concrete non empty
memory text, a request with a non leading system message, and an absent
Anthropic system parameter. -/
theorem c7_injection_amended_witness :
    (injectMemoryContextOA c7Params "MEM").messages
      = some [{ role := "user", content := "hi" },
              { role := "system", content := "MEM\n\nbe brief" }]
    ∧ (injectMemoryContextA
        { messages := none, system := ASystem.absent,
          stream := false, model := none } "MEM").system = ASystem.str "MEM" := by
  have h := c7_injection_amended "MEM" c7Params
    { messages := none, system := ASystem.absent, stream := false, model := none }
    c7Msgs (by decide) rfl
  exact ⟨h.1.trans (by decide), h.2.2.trans (by rfl)⟩

/-! ## The request messages of the capture pipeline (C10) -/

/-- The newline separated entries claim C10 prescribes for the Gemini
extraction: the texts of the user role items only. -/
def userRoleTextsG : List GItem → List String
  | [] => []
  | i :: rest =>
      (match i with
        | GItem.plainStr _ => []
        | GItem.obj role parts text =>
            if role = some "user" then gItemTexts (GItem.obj role parts text)
            else [])
      ++ userRoleTextsG rest

/-- A Gemini request carrying one model role item and one user role item. -/
def c10Items : List GItem :=
  [GItem.obj (some "model") (some [{ text := some "prev answer" }]) none,
   GItem.obj (some "user") (some [{ text := some "hi" }]) none]

def c10Request : GRequest :=
  GRequest.obj (GContents.items c10Items)

/-- C10 counterexample: the Gemini extraction joins the texts of every
content item regardless of role, so on a request holding a model role item
and a user role item the request message handed to capture contains the model
role text as well, while the claim prescribes only the user role text. -/
theorem c10_role_counterexample :
    extractUserMessagesG c10Request = "prev answer\nhi"
    ∧ buildRequestMessagesG (extractUserMessagesG c10Request)
      = [{ role := "user", content := "prev answer\nhi" }]
    ∧ joinSep "\n" (userRoleTextsG c10Items) = "hi"
    ∧ extractUserMessagesG c10Request ≠ joinSep "\n" (userRoleTextsG c10Items) := by
  refine ⟨by decide, by decide, by decide, by decide⟩

/-- The user role contents of an OpenAI request, as a filterMap. -/
def userRoleContentsOA (pm : OAParams) : List String :=
  match pm.messages with
  | none => []
  | some msgs =>
      msgs.filterMap (fun m =>
        if m.role == "user" && m.content != "" then some m.content else none)

/-- The user role entries of an Anthropic request, as a filterMap. -/
def userRoleEntriesA (pa : AParams) : List String :=
  match pa.messages with
  | none => []
  | some msgs =>
      msgs.filterMap (fun m =>
        if m.role == "user" then userTextA m.content else none)

/-- The texts of all Gemini content items, in order, as a flattened map. -/
def allItemTextsG (l : List GItem) : List String :=
  (l.map gItemTexts).flatten

theorem filter_map_eq_filterMap_contents (msgs : List OAMsg) :
    (msgs.filter (fun m => m.role == "user" && m.content != "")).map
        (fun m => m.content)
      = msgs.filterMap (fun m =>
          if m.role == "user" && m.content != "" then some m.content else none) := by
  induction msgs with
  | nil => rfl
  | cons m rest ih =>
      cases h : (m.role == "user" && m.content != "") with
      | true =>
          rw [List.filter_cons, List.filterMap_cons, if_pos h, if_pos h]
          dsimp only
          rw [List.map_cons, ih]
      | false =>
          have hn : ¬ ((m.role == "user" && m.content != "") = true) := by
            simp [h]
          rw [List.filter_cons, List.filterMap_cons, if_neg hn, if_neg hn]
          dsimp only
          exact ih

theorem collectTextsG_eq_flatten (l : List GItem) :
    collectTextsG l = (l.map gItemTexts).flatten := by
  induction l with
  | nil => rfl
  | cons i rest ih => simp [collectTextsG, ih]

/-- C10 amended: the request messages handed to the capture pipeline are
always exactly the one element list with role user whose content is the
extracted text; for OpenAI Chat Completions that text is the newline join of
the truthy user role message contents, for Anthropic the newline join of the
user role message entries, and for Gemini the newline join of the texts of
all content items regardless of role (string contents passed through,
unknown shapes giving the empty string). -/
theorem c10_request_messages_amended (u : String) (pm : OAParams)
    (pa : AParams) (g : GRequest) :
    buildRequestMessagesOA u = [{ role := "user", content := u }]
    ∧ buildRequestMessagesA u = [{ role := "user", content := u }]
    ∧ buildRequestMessagesG u = [{ role := "user", content := u }]
    ∧ buildRequestMessagesClaude u = [{ role := "user", content := u }]
    ∧ extractUserMessagesOA pm = joinSep "\n" (userRoleContentsOA pm)
    ∧ extractUserMessagesA pa = joinSep "\n" (userRoleEntriesA pa)
    ∧ extractUserMessagesG g
      = (match g.contents with
        | GContents.strv s => s
        | GContents.items l => joinSep "\n" (allItemTextsG l)
        | GContents.other => "") := by
  refine ⟨rfl, rfl, rfl, rfl, ?_, ?_, ?_⟩
  · unfold extractUserMessagesOA userRoleContentsOA
    cases hpm : pm.messages with
    | none => rfl
    | some msgs =>
        dsimp only
        rw [filter_map_eq_filterMap_contents]
  · unfold extractUserMessagesA userRoleEntriesA
    cases hpa : pa.messages with
    | none => rfl
    | some msgs => rfl
  · unfold extractUserMessagesG allItemTextsG
    cases hg : g.contents with
    | strv s => rfl
    | items l =>
        dsimp only
        rw [collectTextsG_eq_flatten]
    | other => rfl

end LearningSDK
